import Mathlib

/-!
Verification development for the TeleDigest scheduler core.

The TypeScript sources are shallowly embedded:
  * JS numbers that hold integers are modelled as `Int` (or `Nat` for counts);
    all divisions that JS performs via `Math.floor`/ECMA internal operators are
    modelled with Lean `Int` E-division `/` (floor for positive divisors), and
    the JS `%` remainder operator (sign of the dividend) by `Int.tmod`.
  * JS strings are Lean `String`s; the string algorithms (trim, split, parseInt)
    are re-implemented structurally over `List Char` following the ECMA-262
    semantics used by the source.
  * `Date` instants are epoch milliseconds (`Int`); the UTC getters follow the
    ECMA-262 definitions (`MinFromTime`, `HourFromTime`, `Day`, `WeekDay`) and
    the civil-from-days calendar conversion.
  * An ISO-8601 timestamp column is modelled by its parsed epoch value:
    `Option Int` where `none` stands for SQL NULL, the empty string, or an
    unparseable string (all observationally equivalent in the due check).
  * Async effects (D1 queries, Telegram sends, LLM calls) are modelled by
    explicit state passing plus oracles; an outcome record collects the result,
    the post state, the number of LLM generation calls and the delivered
    messages.
-/

namespace TeleDigest

set_option maxRecDepth 8000

/-! ## JS string primitives -/

/-- ECMA-262 white space and line terminator set: the class matched by `\s`
in a JS regular expression and trimmed by `String.prototype.trim`. -/
def jsIsWs (c : Char) : Bool :=
  let n := c.toNat
  n == 9 || n == 10 || n == 11 || n == 12 || n == 13 || n == 32 || n == 160 ||
  n == 0x1680 || (decide (0x2000 ≤ n) && decide (n ≤ 0x200A)) ||
  n == 0x2028 || n == 0x2029 || n == 0x202F || n == 0x205F || n == 0x3000 ||
  n == 0xFEFF

/-- Character-list form of `String.prototype.trim`. -/
def jsTrimChars (cs : List Char) : List Char :=
  ((cs.dropWhile jsIsWs).reverse.dropWhile jsIsWs).reverse

/-- Embeds `String.prototype.trim`. -/
def jsTrim (s : String) : String :=
  String.mk (jsTrimChars s.data)

/-- Embeds `str.split(sep)` for a single-character separator `sep`:
`"".split(sep) = [""]`, empty pieces are kept. -/
def splitOnChar (sep : Char) : List Char → List (List Char)
  | [] => [[]]
  | c :: rest =>
    if c == sep then [] :: splitOnChar sep rest
    else
      match splitOnChar sep rest with
      | [] => [[c]]
      | t :: ts => (c :: t) :: ts

/-- Worker for `splitWs`. The flag records whether we are inside a white
space run that has already terminated the previous token. -/
def splitWsAux : Bool → List Char → List Char → List (List Char)
  | _, [], cur => [cur.reverse]
  | inWs, c :: rest, cur =>
    if jsIsWs c then
      if inWs then splitWsAux true rest cur
      else cur.reverse :: splitWsAux true rest []
    else splitWsAux false rest (c :: cur)

/-- Embeds `str.split(/\s+/)`: split on maximal white space runs; a leading or
trailing run contributes an empty token, and `"".split` gives `[""]`. -/
def splitWs (cs : List Char) : List (List Char) :=
  splitWsAux false cs []

/-- Numeric value of a list of decimal digits. -/
def digitsVal (ds : List Char) : Nat :=
  ds.foldl (fun n c => n * 10 + (c.toNat - 48)) 0

/-- Leading-digit part of `parseInt(s, 10)`: `none` when no digits. -/
def parseIntDigits (cs : List Char) : Option Nat :=
  let ds := cs.takeWhile Char.isDigit
  if ds.isEmpty then none else some (digitsVal ds)

/-- Embeds `parseInt(s, 10)`: skip leading white space, optional sign, consume the
leading run of decimal digits (trailing garbage ignored); `none` models NaN. -/
def jsParseInt (s : String) : Option Int :=
  match s.data.dropWhile jsIsWs with
  | '-' :: rest => (parseIntDigits rest).map (fun n => -(n : Int))
  | '+' :: rest => (parseIntDigits rest).map (fun n => (n : Int))
  | cs => (parseIntDigits cs).map (fun n => (n : Int))

/-- The JS `%` operator on integers: truncated remainder (sign of the
dividend). -/
def jsMod (a b : Int) : Int :=
  Int.tmod a b

/-- JS `x || dflt` on a string already known to be non-null: the empty string
is falsy. -/
def jsOrStr (s dflt : String) : String :=
  if s == "" then dflt else s

/-- JS `x || dflt` on a nullable string: null and the empty string are falsy. -/
def jsOrOptStr (s : Option String) (dflt : String) : String :=
  match s with
  | none => dflt
  | some v => if v == "" then dflt else v

/-! ## ECMA-262 `Date` time getters (UTC; the worker runtime is UTC) -/

/-- ECMA `Day(t)`: the epoch day number holding instant `t`. -/
def dayNumber (t : Int) : Int := t / 86400000

/-- ECMA `MinFromTime(t)`, as returned by `Date.prototype.getMinutes` in UTC. -/
def getMinutes (t : Int) : Int := t / 60000 % 60

/-- ECMA `HourFromTime(t)`. -/
def getHours (t : Int) : Int := t / 3600000 % 24

/-- ECMA `WeekDay(t)`: 0 = Sunday; the epoch day 0 was a Thursday. -/
def getDay (t : Int) : Int := (dayNumber t + 4) % 7

/-- Civil calendar date `(year, month 1..12, day 1..31)` of an epoch day
number, by the standard era/day-of-era conversion. -/
def civilFromDays (z0 : Int) : Int × Int × Int :=
  let z := z0 + 719468
  let era := z / 146097
  let doe := z % 146097
  let yoe := (doe - doe / 1460 + doe / 36524 - doe / 146096) / 365
  let doy := doe - (365 * yoe + yoe / 4 - yoe / 100)
  let mp := (5 * doy + 2) / 153
  let d := doy - (153 * mp + 2) / 5 + 1
  let m := if mp < 10 then mp + 3 else mp - 9
  (if m ≤ 2 then yoe + era * 400 + 1 else yoe + era * 400, m, d)

/-- Embeds `Date.prototype.getFullYear` (UTC). -/
def getFullYear (t : Int) : Int := (civilFromDays (dayNumber t)).1

/-- Embeds `Date.prototype.getMonth` (UTC): 0-based month. -/
def getMonth (t : Int) : Int := (civilFromDays (dayNumber t)).2.1 - 1

/-- Embeds `Date.prototype.getDate` (UTC): day of month 1..31. -/
def getDate (t : Int) : Int := (civilFromDays (dayNumber t)).2.2

/-! ## Schedule type and parser (src/src/summary.ts, schedule part) -/

/-- The `Schedule` union type of `types.ts`. -/
inductive Schedule where
  | interval (ms : Int)
  | cron (fields : List String)
deriving DecidableEq, Repr

/-- Millisecond multiplier for an interval unit, as in `parseSchedule`. -/
def unitMultiplier (u : Char) : Int :=
  if u == 'm' then 60000 else if u == 'h' then 3600000 else 86400000

/-- Full-match decomposition of the anchored regular expression
`^(\d+)\s*([mhd])$`: the digit run, then optional white space, then exactly
one unit character ending the string. -/
def intervalDecomp (cs : List Char) : Option (Nat × Char) :=
  let ds := cs.takeWhile Char.isDigit
  if ds.isEmpty then none
  else
    match (cs.dropWhile Char.isDigit).dropWhile jsIsWs with
    | [u] =>
      if u == 'm' || u == 'h' || u == 'd' then some (digitsVal ds, u) else none
    | _ => none

/-- Embeds `parseSchedule` from the schedule module: trim, try the interval form
(rejecting a non-positive amount), otherwise split on white space and accept
exactly five cron fields verbatim. -/
def parseSchedule (schedule : String) : Option Schedule :=
  let trimmed := jsTrimChars schedule.data
  match intervalDecomp trimmed with
  | some (amount, unit) =>
    if amount ≤ 0 then none
    else some (.interval ((amount : Int) * unitMultiplier unit))
  | none =>
    let parts := splitWs trimmed
    if parts.length == 5 then some (.cron (parts.map String.mk))
    else none

/-- Embeds `parseDuration` from `utils.ts`: same amount+unit grammar, returning
milliseconds, rejecting a non-positive amount. -/
def parseDuration (value : String) : Option Int :=
  match intervalDecomp (jsTrimChars value.data) with
  | some (amount, unit) =>
    if amount ≤ 0 then none
    else some ((amount : Int) * unitMultiplier unit)
  | none => none

/-! ## Cron matching (src/src/summary.ts, schedule part) -/

/-- The post-parse range check of `cronPartMatches`: bounds guard, plain and
wrapping range membership, and the step distance test. -/
def cronRangeMatches (rangeStart rangeEnd step value min max : Int) : Bool :=
  if rangeStart < min || rangeEnd > max then false
  else if rangeStart ≤ rangeEnd then
    if value < rangeStart || value > rangeEnd then false
    else jsMod (value - rangeStart) step == 0
  else if value ≥ rangeStart || value ≤ rangeEnd then
    let distance := if value ≥ rangeStart then value - rangeStart
                    else (max - rangeStart + 1) + value
    jsMod distance step == 0
  else false

/-- Embeds `cronPartMatches`: one comma-part of a cron field against a value. -/
def cronPartMatches (part : String) (value min max : Int) (isDow : Bool) : Bool :=
  if part == "" then false
  else
    let stepSplit : Option (List Char × Int) :=
      if part.data.any (fun c => c == '/') then
        match splitOnChar '/' part.data with
        | range :: stepRaw :: _ =>
          match jsParseInt (String.mk stepRaw) with
          | none => none
          | some s => if s ≤ 0 then none
                      else some ((if range.isEmpty then ['*'] else range), s)
        | _ => none
      else some (part.data, 1)
    match stepSplit with
    | none => false
    | some (rangePart, step) =>
      if rangePart == ['*'] then jsMod (value - min) step == 0
      else
        let bounds : Option (Int × Int) :=
          if rangePart.any (fun c => c == '-') then
            match splitOnChar '-' rangePart with
            | startRaw :: endRaw :: _ =>
              match jsParseInt (String.mk startRaw), jsParseInt (String.mk endRaw) with
              | some s, some e => some (s, e)
              | _, _ => none
            | _ => none
          else
            match jsParseInt (String.mk rangePart) with
            | some s => some (s, s)
            | none => none
        match bounds with
        | none => false
        | some (s0, e0) =>
          let rangeStart := if isDow && s0 == 7 then 0 else s0
          let rangeEnd := if isDow && e0 == 7 then 0 else e0
          cronRangeMatches rangeStart rangeEnd step value min max

/-- Embeds `cronFieldMatches`: `*` always matches; otherwise any trimmed comma-part
must match. -/
def cronFieldMatches (field : String) (value min max : Int) (isDow : Bool) : Bool :=
  if field == "*" then true
  else (splitOnChar ',' field.data).any
    (fun part => cronPartMatches (String.mk (jsTrimChars part)) value min max isDow)

/-- Embeds `cronMatches`: all five fields must match the date (minute, hour,
day-of-month, 1-based month, day-of-week). A list that does not have exactly
five fields never matches (the parser only produces five). -/
def cronMatches (fields : List String) (date : Int) : Bool :=
  match fields with
  | [minField, hourField, dayField, monthField, dowField] =>
    cronFieldMatches minField (getMinutes date) 0 59 false &&
    cronFieldMatches hourField (getHours date) 0 23 false &&
    cronFieldMatches dayField (getDate date) 1 31 false &&
    cronFieldMatches monthField (getMonth date + 1) 1 12 false &&
    cronFieldMatches dowField (getDay date) 0 7 true
  | _ => false

/-! ## Due check (src/src/summary.ts, schedule part) -/

/-- Embeds `isSameMinute(a, b, tzOffsetMinutes)`: shifts both instants by the offset
once more and compares the five calendar components down to the minute. -/
def isSameMinute (a b tzOffsetMinutes : Int) : Bool :=
  let aLocal := a + tzOffsetMinutes * 60000
  let bLocal := b + tzOffsetMinutes * 60000
  getFullYear aLocal == getFullYear bLocal &&
  getMonth aLocal == getMonth bLocal &&
  getDate aLocal == getDate bLocal &&
  getHours aLocal == getHours bLocal &&
  getMinutes aLocal == getMinutes bLocal

/-- Embeds `isScheduleDue(schedule, lastSummary, now, tzOffsetMinutes)`. The
`lastSummary` ISO string is modelled by its parse: `none` covers null, the
empty string and an unparseable string, which the source treats alike in both
branches. -/
def isScheduleDue (schedule : Schedule) (lastSummary : Option Int)
    (now tzOffsetMinutes : Int) : Bool :=
  match schedule with
  | .interval ms =>
    match lastSummary with
    | none => true
    | some last => decide (now - last ≥ ms)
  | .cron fields =>
    let localNow := now + tzOffsetMinutes * 60000
    let suppressed :=
      match lastSummary with
      | none => false
      | some last => isSameMinute (last + tzOffsetMinutes * 60000) localNow tzOffsetMinutes
    if suppressed then false else cronMatches fields localNow

/-! ## Constants (src/src/constants module copy) -/

/-- Embeds `LLM_TIMEOUT_MS` from the constants module. -/
def LLM_TIMEOUT_MS : Nat := 120000

/-- Embeds `GROUP_TIMEOUT_MS` from the schedule module: per-group wall clock guard,
LLM timeout plus a 10 s buffer. -/
def GROUP_TIMEOUT_MS : Nat := LLM_TIMEOUT_MS + 10000

/-- Embeds `DEFAULT_SCHEDULE` from the constants module. -/
def DEFAULT_SCHEDULE : String := "0 * * * *"

/-- Embeds `MAX_MESSAGES_PER_SUMMARY` from the constants module. -/
def MAX_MESSAGES_PER_SUMMARY : Nat := 500

/-! ## Rows and database state (types.ts and the db module) -/

/-- Embeds `GroupConfigRow` of `types.ts`. The numeric 0/1 gates become `Bool`; the
nullable ISO timestamp columns are modelled by their parsed epoch value. -/
structure GroupConfigRow where
  group_id : Int
  group_name : String
  enabled : Bool
  schedule : String
  leaderboard_schedule : Option String
  leaderboard_enabled : Bool
  leaderboard_window : Option String
  target_chat_id : Option Int
  last_summary_time : Option Int
  last_message_id : Int
  last_leaderboard_time : Option Int
deriving DecidableEq, Repr

/-- Embeds `GroupMessageRow` of `types.ts`. `message_date` is an ISO string column
compared lexicographically by SQLite; since the format is fixed, it is
modelled by its chronological key. -/
structure GroupMessageRow where
  message_id : Int
  group_id : Int
  sender_id : Int
  sender_name : String
  content : String
  message_date : Nat
  has_media : Bool
  media_type : Option String
  is_summarized : Bool
deriving DecidableEq, Repr

/-- The group's slice of the D1 database: its config row (if registered) and
its `group_messages` rows. -/
structure DbState where
  config : Option GroupConfigRow
  messages : List GroupMessageRow
deriving DecidableEq, Repr

/-- Insert one row into a list sorted by `message_date`. -/
def insertByDate (m : GroupMessageRow) : List GroupMessageRow → List GroupMessageRow
  | [] => [m]
  | x :: xs =>
    if m.message_date ≤ x.message_date then m :: x :: xs
    else x :: insertByDate m xs

/-- Sort rows by `message_date` ascending (the `ORDER BY` of the query). -/
def sortByDate : List GroupMessageRow → List GroupMessageRow
  | [] => []
  | x :: xs => insertByDate x (sortByDate xs)

/-- Embeds `getUnsummarizedMessages`: rows of the group with `is_summarized = 0`,
ordered by `message_date` ascending, limited. -/
def getUnsummarizedMessages (st : DbState) (groupId : Int) (limit : Nat) :
    List GroupMessageRow :=
  (sortByDate (st.messages.filter
    (fun m => m.group_id == groupId && !m.is_summarized))).take limit

/-- Embeds `markMessagesSummarized`: set `is_summarized = 1` on the group's rows with
`message_id <= upToMessageId` that are still unsummarized. -/
def markMessagesSummarized (st : DbState) (groupId upToMessageId : Int) : DbState :=
  { st with messages := st.messages.map (fun m =>
      if m.group_id == groupId && decide (m.message_id ≤ upToMessageId) &&
          !m.is_summarized then
        { m with is_summarized := true }
      else m) }

/-- Embeds `updateGroupAfterSummary`: set `last_summary_time` to the current ISO
instant and `last_message_id` to the batch maximum on the group's config row. -/
def updateGroupAfterSummary (st : DbState) (groupId lastMessageId : Int)
    (nowMs : Int) : DbState :=
  { st with config := st.config.map (fun c =>
      if c.group_id == groupId then
        { c with last_summary_time := some nowMs, last_message_id := lastMessageId }
      else c) }

/-- Embeds `updateGroupAfterLeaderboard`: set `last_leaderboard_time` on the group's
config row. -/
def updateGroupAfterLeaderboard (st : DbState) (groupId : Int)
    (lastLeaderboardTime : Int) : DbState :=
  { st with config := st.config.map (fun c =>
      if c.group_id == groupId then
        { c with last_leaderboard_time := some lastLeaderboardTime }
      else c) }

/-! ## Summary job runner (src/src/summary.ts) -/

/-- Embeds `SummaryResult` of `types.ts`. -/
structure SummaryResult where
  success : Bool
  content : String
  error : Option String
deriving DecidableEq, Repr

/-- Two-digit zero padding, as `String(n).padStart(2, "0")` for `n < 100`. -/
def pad2 (n : Nat) : String :=
  if n < 10 then "0" ++ toString n else toString n

/-- Embeds `formatTime`: render the UTC hour and minute of a message date. Under the
chronological-key model the date always parses, so the NaN branch returning
a placeholder is unreachable. -/
def formatTime (t : Nat) : String :=
  pad2 (t / 3600000 % 24) ++ ":" ++ pad2 (t / 60000 % 60)

/-- Embeds `formatMessages`: one transcript line per message; a media tag is
prefixed (or substituted) when a media type is present, and an empty sender
name falls back to a placeholder. -/
def formatMessages (messages : List GroupMessageRow) : List String :=
  messages.map (fun message =>
    let time := formatTime message.message_date
    let sender := if message.sender_name == "" then "Unknown" else message.sender_name
    let content :=
      match message.media_type with
      | some mt =>
        if message.has_media && mt != "" then
          if message.content == "" then "[" ++ mt ++ "]"
          else "[" ++ mt ++ "] " ++ message.content
        else message.content
      | none => message.content
    "[" ++ time ++ "] " ++ sender ++ ": " ++ content)

/-- Embeds `Math.max(...)` over a list; the empty case (negative infinity in JS) is
unreachable at the call site, which is guarded by a non-empty batch. -/
def listMax : List Int → Int
  | [] => 0
  | x :: xs => xs.foldl max x

/-- Outcome of one summary run: the returned `SummaryResult`, the database
state afterwards, the number of LLM generation calls issued, and the
messages delivered over Telegram as (chat id, text) pairs. -/
structure RunOutcome where
  result : SummaryResult
  state : DbState
  genCalls : Nat
  sent : List (Int × String)
deriving DecidableEq, Repr

/-- Embeds `runSummaryForGroup`. The external LLM call `summarizeMessages` is the
oracle `gen`; `nowMs` is the wall clock instant the db layer writes into
`last_summary_time`. -/
def runSummaryForGroup (gen : List String → SummaryResult) (nowMs : Int)
    (st : DbState) (groupId : Int) : RunOutcome :=
  match st.config with
  | none => ⟨⟨false, "", some "群组配置不存在"⟩, st, 0, []⟩
  | some config =>
    let messages := getUnsummarizedMessages st groupId MAX_MESSAGES_PER_SUMMARY
    if messages.isEmpty then ⟨⟨true, "", none⟩, st, 0, []⟩
    else
      let summary := gen (formatMessages messages)
      if !summary.success then ⟨summary, st, 1, []⟩
      else
        let targetChat := config.target_chat_id.getD groupId
        let maxMessageId := listMax (messages.map (fun msg => msg.message_id))
        let st1 := markMessagesSummarized st groupId maxMessageId
        let st2 := updateGroupAfterSummary st1 groupId maxMessageId nowMs
        ⟨summary, st2, 1, [(targetChat, summary.content)]⟩

/-! ## Scheduler tick dispatch (schedule part of summary.ts; leaderboard.ts) -/

/-- One job dispatched by a scheduler tick. `timeoutMs = some t` means the
job promise is wrapped by `withTimeout(.., t, label)`; `none` means it is
awaited with no per-job timeout. -/
structure DispatchedJob where
  groupId : Int
  timeoutMs : Option Nat
deriving DecidableEq, Repr

/-- The per-group dispatch of `runScheduledSummaries`: for each enabled group
whose (defaulted) schedule parses and is due, one job wrapped with
`withTimeout(.., GROUP_TIMEOUT_MS, ..)`. -/
def summaryDispatch (groups : List GroupConfigRow) (now tz : Int) :
    List DispatchedJob :=
  groups.filterMap (fun group =>
    match parseSchedule (jsOrStr group.schedule DEFAULT_SCHEDULE) with
    | none => none
    | some parsed =>
      if isScheduleDue parsed group.last_summary_time now tz then
        some ⟨group.group_id, some GROUP_TIMEOUT_MS⟩
      else none)

/-- The per-group dispatch of `runScheduledLeaderboards`: the same gating, but
each due job is awaited directly inside try/catch, with no timeout wrapper.
`dls` is `DEFAULT_LEADERBOARD_SCHEDULE`, whose defining module is not in the
sources; it is kept as a parameter. -/
def leaderboardDispatch (dls : String) (groups : List GroupConfigRow)
    (now tz : Int) : List DispatchedJob :=
  groups.filterMap (fun group =>
    match parseSchedule (jsTrim (jsOrOptStr group.leaderboard_schedule dls)) with
    | none => none
    | some parsed =>
      if isScheduleDue parsed group.last_leaderboard_time now tz then
        some ⟨group.group_id, none⟩
      else none)

/-! ## Leaderboard job runner (src/src/leaderboard.ts) -/

/-- Embeds `LeaderboardRow` returned by the aggregation query. -/
structure LeaderboardRow where
  sender_id : Int
  sender_name : String
  message_count : Int
deriving DecidableEq, Repr

/-- Embeds `formatDuration`: largest whole unit (days, hours, minutes) that evenly
divides the window. The window is always a whole number of minutes, so the
`Math.round` in the source is an exact division. -/
def formatDuration (ms : Int) : String :=
  let minutes := ms / 60000
  if minutes % 1440 == 0 then toString (minutes / 1440) ++ "天"
  else if minutes % 60 == 0 then toString (minutes / 60) ++ "小时"
  else toString minutes ++ "分钟"

/-- Embeds `resolveLeaderboardWindow`: parse the window string, falling back to the
default `dlw` and then to one minute, floor at one minute, and return the
window start and label. `dlw` is `DEFAULT_LEADERBOARD_WINDOW`, kept as a
parameter (its defining module is not in the sources). -/
def resolveLeaderboardWindow (dlw : String) (windowText : String) (now : Int) :
    Int × String :=
  let parsed : Option Int :=
    match parseDuration windowText with
    | some v => some v
    | none => parseDuration dlw
  let windowMs :=
    max (match parsed with
         | none => 60000
         | some v => if v == 0 then 60000 else v) 60000
  (now - windowMs, "过去" ++ formatDuration windowMs)

/-- Outcome of one leaderboard run. -/
structure LbOutcome where
  result : SummaryResult
  state : DbState
  sent : List (Int × String)
deriving DecidableEq, Repr

/-- Embeds `runLeaderboardForGroup`. The aggregation query is the oracle `agg`,
taking the window start, the window end (`now`) and the row limit; `dls` and
`dlw` are the leaderboard default constants kept as parameters, and `topN`
is `LEADERBOARD_TOP_N`. -/
def runLeaderboardForGroup (dls dlw : String) (topN : Nat)
    (agg : Int → Int → Nat → List LeaderboardRow)
    (st : DbState) (groupId : Int) (now : Int) : LbOutcome :=
  match st.config with
  | none => ⟨⟨false, "", some "群组配置不存在"⟩, st, []⟩
  | some config =>
    let scheduleText := jsTrim (jsOrOptStr config.leaderboard_schedule dls)
    let schedule :=
      match parseSchedule scheduleText with
      | some s => some s
      | none => parseSchedule dls
    match schedule with
    | none => ⟨⟨false, "", some "排行榜定时配置无效"⟩, st, []⟩
    | some _ =>
      let window := resolveLeaderboardWindow dlw (jsOrOptStr config.leaderboard_window dlw) now
      let rows := agg window.1 now topN
      if rows.isEmpty then
        ⟨⟨true, "", none⟩, updateGroupAfterLeaderboard st groupId now, []⟩
      else
        let groupName := if config.group_name == "" then toString groupId else config.group_name
        let lines := rows.enum.map (fun p =>
          let name := if p.2.sender_name == "" then toString p.2.sender_id else p.2.sender_name
          toString (p.1 + 1) ++ ". " ++ name ++ " - " ++ toString p.2.message_count ++ "条")
        let header := "🏆 " ++ groupName ++ " 消息排行榜（" ++ window.2 ++ "）"
        let text := String.intercalate "\n" (header :: "" :: lines)
        let targetChat := config.target_chat_id.getD groupId
        ⟨⟨true, text, none⟩, updateGroupAfterLeaderboard st groupId now, [(targetChat, text)]⟩

/-! ## Concrete instances used by the claim theorems -/

/-- Concrete summary-enabled group used to instantiate the dispatch claims. -/
def sampleSummaryGroup : GroupConfigRow :=
  ⟨1, "g", true, "1h", none, true, none, none, none, 0, none⟩

/-- Concrete leaderboard-enabled group used to instantiate the dispatch
claims. -/
def sampleLbGroup : GroupConfigRow :=
  ⟨1, "g", true, "1h", some "1m", true, none, none, none, 0, none⟩

/-- A generation oracle that always succeeds with fixed content. -/
def c5gen : List String → SummaryResult := fun _ => ⟨true, "ok", none⟩

/-- Config row of the counterexample group. -/
def c5cfg : GroupConfigRow :=
  ⟨1, "g", true, "1h", none, true, none, none, none, 0, none⟩

/-- The counterexample's messages: id `i + 1`, date `i`, pending. -/
def c5msg (i : Nat) : GroupMessageRow :=
  ⟨(i : Int) + 1, 1, 2, "u", "hi", i, false, none, false⟩

/-- A backlog of 501 pending messages (one more than the batch cap), with ids 1..501 and
strictly increasing dates. -/
def c5msgs : List GroupMessageRow := (List.range 501).map c5msg

/-- Counterexample state: a registered group with a 501-message backlog. -/
def c5state : DbState := ⟨some c5cfg, c5msgs⟩

/-- One-message state for the drain witness. -/
def c5stateSmall : DbState :=
  ⟨some c5cfg, [⟨10, 1, 2, "u", "hi", 0, false, none, false⟩]⟩

/-! ## Arithmetic infrastructure for minute-granularity reasoning -/

/-- Floor division composes: dividing by `b` and then by `c` is dividing by
`b * c`, for positive divisors. -/
theorem ediv_ediv (a : Int) {b c : Int} (hb : 0 < b) (hc : 0 < c) :
    a / b / c = a / (b * c) := by
  have hbc : 0 < b * c := mul_pos hb hc
  have h1 : b * (a / b) + a % b = a := Int.ediv_add_emod a b
  have h2 : c * (a / b / c) + (a / b) % c = a / b := Int.ediv_add_emod (a / b) c
  have h2b : b * (c * (a / b / c) + (a / b) % c) = b * (a / b) := by rw [h2]
  have hr1 : 0 ≤ a % b := Int.emod_nonneg a (ne_of_gt hb)
  have hr2 : 0 ≤ (a / b) % c := Int.emod_nonneg (a / b) (ne_of_gt hc)
  have hrb : a % b < b := Int.emod_lt_of_pos a hb
  have hrc : (a / b) % c < c := Int.emod_lt_of_pos (a / b) hc
  have key : b * ((a / b) % c) + a % b + b * c * (a / b / c) = a := by
    linear_combination h1 + h2b
  have hnn : 0 ≤ b * ((a / b) % c) + a % b :=
    add_nonneg (mul_nonneg (le_of_lt hb) hr2) hr1
  have hmle : b * ((a / b) % c) ≤ b * (c - 1) :=
    mul_le_mul_of_nonneg_left (by omega) (le_of_lt hb)
  have hlt : b * ((a / b) % c) + a % b < b * c := by
    have : b * ((a / b) % c) + a % b < b * (c - 1) + b := by linarith
    calc b * ((a / b) % c) + a % b < b * (c - 1) + b := this
      _ = b * c := by ring
  exact (((Int.ediv_emod_unique hbc).mpr ⟨by linarith [key], hnn, hlt⟩).1).symm

/-- Shifting an instant by a whole number of minutes shifts its minute index
by that number. -/
theorem minuteIdx_shift (t m : Int) : (t + m * 60000) / 60000 = t / 60000 + m :=
  Int.add_mul_ediv_right t m (by norm_num)

/-- The minute component is a function of the minute index. -/
theorem getMinutes_eq_of {a b : Int} (h : a / 60000 = b / 60000) :
    getMinutes a = getMinutes b := by
  unfold getMinutes; rw [h]

/-- The hour component is a function of the minute index. -/
theorem getHours_eq_of {a b : Int} (h : a / 60000 = b / 60000) :
    getHours a = getHours b := by
  have e : ∀ x : Int, x / 3600000 = x / 60000 / 60 := fun x => by
    rw [ediv_ediv x (by norm_num : (0:Int) < 60000) (by norm_num : (0:Int) < 60)]
    norm_num
  unfold getHours
  rw [e a, e b, h]

/-- The epoch day number is a function of the minute index. -/
theorem dayNumber_eq_of {a b : Int} (h : a / 60000 = b / 60000) :
    dayNumber a = dayNumber b := by
  have e : ∀ x : Int, x / 86400000 = x / 60000 / 1440 := fun x => by
    rw [ediv_ediv x (by norm_num : (0:Int) < 60000) (by norm_num : (0:Int) < 1440)]
    norm_num
  unfold dayNumber
  rw [e a, e b, h]

/-- Instants in the same calendar minute keep their five calendar components
equal after any further shift by a whole number of minutes, so the
`isSameMinute` comparison holds. -/
theorem isSameMinute_of_minuteIdx {a b : Int} (tz : Int)
    (h : a / 60000 = b / 60000) : isSameMinute a b tz = true := by
  have h2 : (a + tz * 60000) / 60000 = (b + tz * 60000) / 60000 := by
    rw [minuteIdx_shift, minuteIdx_shift, h]
  have hd : dayNumber (a + tz * 60000) = dayNumber (b + tz * 60000) :=
    dayNumber_eq_of h2
  simp only [isSameMinute]
  rw [getMinutes_eq_of h2, getHours_eq_of h2]
  unfold getFullYear getMonth getDate
  rw [hd]
  simp

/-! ## Claim theorems: due check -/

/-- C1: for a cron schedule, if the last run parses and falls in the same
calendar minute as `now` once both are shifted by the timezone offset, the
due check is suppressed and returns false (whatever the cron fields); if the
last run is null or unparseable (`none`), the due check returns exactly the
cron match against the shifted `now`. -/
theorem isScheduleDue_cron_spec (fields : List String) (tz now last : Int)
    (h : (last + tz * 60000) / 60000 = (now + tz * 60000) / 60000) :
    isScheduleDue (Schedule.cron fields) (some last) now tz = false ∧
    isScheduleDue (Schedule.cron fields) none now tz =
      cronMatches fields (now + tz * 60000) := by
  constructor
  · simp [isScheduleDue, isSameMinute_of_minuteIdx tz h]
  · simp [isScheduleDue]

/-- C1 witness: with a 30-minute offset, a last run at 0:01:00 and a now of
0:01:30 share the shifted calendar minute, so the due check is suppressed. -/
theorem isScheduleDue_cron_spec_witness :
    ((60000 + 30 * 60000) / 60000 : Int) = (90000 + 30 * 60000) / 60000 ∧
    (isScheduleDue (Schedule.cron ["*", "*", "*", "*", "*"]) (some 60000) 90000 30 = false ∧
     isScheduleDue (Schedule.cron ["*", "*", "*", "*", "*"]) none 90000 30 =
       cronMatches ["*", "*", "*", "*", "*"] (90000 + 30 * 60000)) :=
  ⟨by decide, isScheduleDue_cron_spec ["*", "*", "*", "*", "*"] 30 90000 60000 (by decide)⟩

/-- C2: an interval schedule is due exactly at the elapsed-time boundary:
true when the last run is `intervalMs` ago, false when it is one millisecond
less than `intervalMs` ago, and true when there is no last run. -/
theorem isScheduleDue_interval_boundary (ms now tz : Int) (_hms : 0 < ms) :
    isScheduleDue (Schedule.interval ms) (some (now - ms)) now tz = true ∧
    isScheduleDue (Schedule.interval ms) (some (now - ms + 1)) now tz = false ∧
    isScheduleDue (Schedule.interval ms) none now tz = true := by
  refine ⟨?_, ?_, ?_⟩
  · simp [isScheduleDue]
  · simp [isScheduleDue]; omega
  · simp [isScheduleDue]

/-- C2 witness: a five-millisecond interval at a concrete instant. -/
theorem isScheduleDue_interval_boundary_witness :
    (0 : Int) < 5 ∧
    (isScheduleDue (Schedule.interval 5) (some (100 - 5)) 100 7 = true ∧
     isScheduleDue (Schedule.interval 5) (some (100 - 5 + 1)) 100 7 = false ∧
     isScheduleDue (Schedule.interval 5) none 100 7 = true) :=
  ⟨by decide, isScheduleDue_interval_boundary 5 100 7 (by decide)⟩

/-! ## Claim theorems: cron field matching -/

/-- C4 counterexample: the minute-field part `"70-5"` has its range start 70
outside the field bounds 0..59, yet it matches the value 3 — the bounds guard
only rejects `start < min` or `end > max`, and `70-5` is treated as a
wrapping range. -/
theorem cronPart_out_of_bounds_counterexample :
    (59 : Int) < 70 ∧ cronPartMatches "70-5" 3 0 59 false = true := by
  constructor
  · decide
  · decide

/-- C4 amended: the matcher rejects a parsed range part (after day-of-week
normalization) exactly when its start is below the field minimum or its end
is above the field maximum; such a part never matches any value. A range
whose start exceeds the maximum while its end is in bounds is instead
interpreted as wrapping and can still match. -/
theorem cronRangeMatches_out_of_bounds (rangeStart rangeEnd step value min max : Int)
    (h : rangeStart < min ∨ rangeEnd > max) :
    cronRangeMatches rangeStart rangeEnd step value min max = false := by
  rcases h with h | h
  · simp [cronRangeMatches, h]
  · simp [cronRangeMatches, h]

/-- C4 amended witness: the range 60-70 on the minute field is rejected for
the value 30. -/
theorem cronRangeMatches_out_of_bounds_witness :
    ((60 : Int) < 0 ∨ (70 : Int) > 59) ∧
    cronRangeMatches 60 70 1 30 0 59 = false :=
  ⟨Or.inr (by decide), cronRangeMatches_out_of_bounds 60 70 1 30 0 59 (Or.inr (by decide))⟩

/-- C7: over the whole minute range, `*/15` matches exactly 0, 15, 30, 45 and
`10-20/5` matches exactly 10, 15, 20; over the whole hour range, the wrapping
`22-2` matches exactly 22, 23, 0, 1, 2. -/
theorem cron_concrete_patterns :
    ((List.range 60).all (fun v =>
        cronFieldMatches "*/15" (v : Int) 0 59 false ==
          (v == 0 || v == 15 || v == 30 || v == 45)) = true) ∧
    ((List.range 60).all (fun v =>
        cronFieldMatches "10-20/5" (v : Int) 0 59 false ==
          (v == 10 || v == 15 || v == 20)) = true) ∧
    ((List.range 24).all (fun v =>
        cronFieldMatches "22-2" (v : Int) 0 23 false ==
          (v == 22 || v == 23 || v == 0 || v == 1 || v == 2)) = true) := by
  refine ⟨?_, ?_, ?_⟩
  · decide
  · decide
  · decide

/-- C10: the day-of-month and day-of-week fields restrict conjunctively, as
do all five fields; when both are non-`*` and either of the two fails to
match the date, the schedule does not match — unlike standard cron's OR rule
for this pair. -/
theorem cronMatches_day_conjunctive (f1 f2 f3 f4 f5 : String) (t : Int)
    (_h3 : f3 ≠ "*") (_h5 : f5 ≠ "*")
    (h : cronFieldMatches f3 (getDate t) 1 31 false = false ∨
         cronFieldMatches f5 (getDay t) 0 7 true = false) :
    cronMatches [f1, f2, f3, f4, f5] t = false := by
  rcases h with h | h
  · simp [cronMatches, h]
  · simp [cronMatches, h]

/-- C10 witness: 2024-01-13 is the 13th (matching day-of-month field `13`)
but a Saturday (failing day-of-week field `5`), so `0 0 13 * 5` does not
match it even though one of the two day fields does. -/
theorem cronMatches_day_conjunctive_witness :
    cronFieldMatches "13" (getDate (19735 * 86400000)) 1 31 false = true ∧
    cronMatches ["0", "0", "13", "*", "5"] (19735 * 86400000) = false :=
  ⟨by decide,
   cronMatches_day_conjunctive "0" "0" "13" "*" "5" (19735 * 86400000)
     (by decide) (by decide) (Or.inr (by decide))⟩

/-! ## Claim theorems: schedule parser -/

/-- C6: `parseSchedule` realises the documented trichotomy on the trimmed
input: a string matching the anchored interval pattern with a positive amount
yields the interval in milliseconds (amount times the unit factor); a string
not matching the interval pattern that splits on white space into exactly
five tokens yields a cron schedule holding those tokens verbatim; every
other string — no interval match and a token count other than five, or an
interval match with amount zero — yields `none`. -/
theorem parseSchedule_spec (s : String) :
    (∀ n u, intervalDecomp (jsTrimChars s.data) = some (n, u) → 0 < n →
       parseSchedule s = some (.interval ((n : Int) * unitMultiplier u))) ∧
    (intervalDecomp (jsTrimChars s.data) = none →
       (splitWs (jsTrimChars s.data)).length = 5 →
       parseSchedule s = some (.cron ((splitWs (jsTrimChars s.data)).map String.mk))) ∧
    ((intervalDecomp (jsTrimChars s.data) = none ∧
        (splitWs (jsTrimChars s.data)).length ≠ 5) ∨
      (∃ u, intervalDecomp (jsTrimChars s.data) = some (0, u)) →
      parseSchedule s = none) := by
  refine ⟨?_, ?_, ?_⟩
  · intro n u hd hn
    simp only [parseSchedule]
    rw [hd]
    simp [Nat.not_le.mpr hn]
  · intro hd hl
    simp only [parseSchedule]
    rw [hd]
    simp [hl]
  · intro h
    rcases h with ⟨hd, hl⟩ | ⟨u, hd⟩
    · simp only [parseSchedule]
      rw [hd]
      simp [hl]
    · simp only [parseSchedule]
      rw [hd]
      simp

/-- C6 witness: `"30m"` is a 30-minute interval, `"a b c d e"` is a cron
schedule with its five tokens verbatim, `"xy"` and the zero-amount `"0m"`
are invalid. -/
theorem parseSchedule_spec_witness :
    parseSchedule "30m" = some (.interval (30 * unitMultiplier 'm')) ∧
    parseSchedule "a b c d e" =
      some (.cron ((splitWs (jsTrimChars ("a b c d e").data)).map String.mk)) ∧
    parseSchedule "xy" = none ∧
    parseSchedule "0m" = none :=
  ⟨(parseSchedule_spec "30m").1 30 'm' (by decide) (by decide),
   (parseSchedule_spec "a b c d e").2.1 (by decide) (by decide),
   (parseSchedule_spec "xy").2.2 (Or.inl ⟨by decide, by decide⟩),
   (parseSchedule_spec "0m").2.2 (Or.inr ⟨'m', by decide⟩)⟩

/-! ## Claim theorems: dispatch timeouts -/

/-- C3 counterexample: a due leaderboard group's job is dispatched with no
per-job timeout at all — `runScheduledLeaderboards` awaits the job inside
try/catch without any `withTimeout` wrapper, contradicting the claim for the
leaderboard job kind. -/
theorem leaderboard_dispatch_no_timeout_counterexample :
    (leaderboardDispatch "0 0 * * *" [sampleLbGroup] 0 0).map
      (fun j => j.timeoutMs) = [none] := by
  decide

/-- C3 amended: summary jobs are each wrapped with the per-job timeout
`GROUP_TIMEOUT_MS`, which equals the LLM call timeout plus a fixed 10 s
buffer and is strictly greater than the LLM timeout; leaderboard jobs are
dispatched sequentially under try/catch with no per-job timeout. -/
theorem dispatch_timeout_spec (sGroups lGroups : List GroupConfigRow)
    (dls : String) (now tz : Int) :
    GROUP_TIMEOUT_MS = LLM_TIMEOUT_MS + 10000 ∧
    LLM_TIMEOUT_MS < GROUP_TIMEOUT_MS ∧
    (∀ j ∈ summaryDispatch sGroups now tz, j.timeoutMs = some GROUP_TIMEOUT_MS) ∧
    (∀ j ∈ leaderboardDispatch dls lGroups now tz, j.timeoutMs = none) := by
  refine ⟨rfl, by decide, ?_, ?_⟩
  · intro j hj
    simp only [summaryDispatch, List.mem_filterMap] at hj
    obtain ⟨g, _, he⟩ := hj
    cases hps : parseSchedule (jsOrStr g.schedule DEFAULT_SCHEDULE) with
    | none => rw [hps] at he; simp at he
    | some p =>
      rw [hps] at he
      by_cases hd : isScheduleDue p g.last_summary_time now tz = true
      · simp only [hd, if_true] at he
        cases he
        rfl
      · simp only [Bool.not_eq_true] at hd
        simp [hd] at he
  · intro j hj
    simp only [leaderboardDispatch, List.mem_filterMap] at hj
    obtain ⟨g, _, he⟩ := hj
    cases hps : parseSchedule (jsTrim (jsOrOptStr g.leaderboard_schedule dls)) with
    | none => rw [hps] at he; simp at he
    | some p =>
      rw [hps] at he
      by_cases hd : isScheduleDue p g.last_leaderboard_time now tz = true
      · simp only [hd, if_true] at he
        cases he
        rfl
      · simp only [Bool.not_eq_true] at hd
        simp [hd] at he

/-- C3 amended witness: concrete due groups; the summary job carries the
wrapped timeout, the leaderboard job carries none. -/
theorem dispatch_timeout_spec_witness :
    (⟨1, some GROUP_TIMEOUT_MS⟩ : DispatchedJob).timeoutMs = some GROUP_TIMEOUT_MS ∧
    (⟨1, none⟩ : DispatchedJob).timeoutMs = none :=
  ⟨(dispatch_timeout_spec [sampleSummaryGroup] [sampleLbGroup] "0 0 * * *" 0 0).2.2.1
      ⟨1, some GROUP_TIMEOUT_MS⟩ (by decide),
   (dispatch_timeout_spec [sampleSummaryGroup] [sampleLbGroup] "0 0 * * *" 0 0).2.2.2
      ⟨1, none⟩ (by decide)⟩

/-! ## Claim theorems: summary runner non-mutating paths -/

/-- C8: with a registered group, `runSummaryForGroup` mutates nothing on its
non-executed paths. When no messages are pending it returns success with
empty content, leaving the state untouched, issuing no generation call and
delivering nothing; when the generation call fails it returns that failure
result (with its error detail) and again leaves the state untouched and
delivers nothing. -/
theorem runSummaryForGroup_no_mutation (gen : List String → SummaryResult)
    (nowMs : Int) (st : DbState) (gid : Int) (cfg : GroupConfigRow)
    (hcfg : st.config = some cfg) :
    (getUnsummarizedMessages st gid MAX_MESSAGES_PER_SUMMARY = [] →
      runSummaryForGroup gen nowMs st gid = ⟨⟨true, "", none⟩, st, 0, []⟩) ∧
    ((gen (formatMessages
        (getUnsummarizedMessages st gid MAX_MESSAGES_PER_SUMMARY))).success = false →
      getUnsummarizedMessages st gid MAX_MESSAGES_PER_SUMMARY ≠ [] →
      runSummaryForGroup gen nowMs st gid =
        ⟨gen (formatMessages (getUnsummarizedMessages st gid MAX_MESSAGES_PER_SUMMARY)),
         st, 1, []⟩) := by
  constructor
  · intro h
    simp only [runSummaryForGroup, hcfg]
    simp [h]
  · intro hfail hne
    simp only [runSummaryForGroup, hcfg]
    simp [hne, hfail]

/-- C8 witness: a group with no pending messages, and a group with one
pending message whose generation call fails. -/
theorem runSummaryForGroup_no_mutation_witness :
    (runSummaryForGroup (fun _ => ⟨false, "", some "boom"⟩) 5
        ⟨some sampleSummaryGroup, []⟩ 1 =
      ⟨⟨true, "", none⟩, ⟨some sampleSummaryGroup, []⟩, 0, []⟩) ∧
    (runSummaryForGroup (fun _ => ⟨false, "", some "boom"⟩) 5
        ⟨some sampleSummaryGroup, [⟨10, 1, 2, "u", "hi", 0, false, none, false⟩]⟩ 1 =
      ⟨⟨false, "", some "boom"⟩,
       ⟨some sampleSummaryGroup, [⟨10, 1, 2, "u", "hi", 0, false, none, false⟩]⟩, 1, []⟩) :=
  ⟨(runSummaryForGroup_no_mutation (fun _ => ⟨false, "", some "boom"⟩) 5
      ⟨some sampleSummaryGroup, []⟩ 1 sampleSummaryGroup rfl).1 (by decide),
   (runSummaryForGroup_no_mutation (fun _ => ⟨false, "", some "boom"⟩) 5
      ⟨some sampleSummaryGroup, [⟨10, 1, 2, "u", "hi", 0, false, none, false⟩]⟩ 1
      sampleSummaryGroup rfl).2 rfl (by decide)⟩

/-! ## Claim theorems: leaderboard empty-rows path -/

/-- C9: when the aggregation returns zero rows, `runLeaderboardForGroup`
still advances `last_leaderboard_time` to the wall clock `now` of the run,
returns success with empty content, and delivers no message. -/
theorem runLeaderboardForGroup_empty_rows (dls dlw : String) (topN : Nat)
    (agg : Int → Int → Nat → List LeaderboardRow) (st : DbState) (gid now : Int)
    (cfg : GroupConfigRow)
    (hcfg : st.config = some cfg) (hgid : cfg.group_id = gid)
    (hsched : (match parseSchedule (jsTrim (jsOrOptStr cfg.leaderboard_schedule dls)) with
               | some s => some s
               | none => parseSchedule dls) ≠ none)
    (hrows : agg (resolveLeaderboardWindow dlw
        (jsOrOptStr cfg.leaderboard_window dlw) now).1 now topN = []) :
    runLeaderboardForGroup dls dlw topN agg st gid now =
      ⟨⟨true, "", none⟩, updateGroupAfterLeaderboard st gid now, []⟩ ∧
    (updateGroupAfterLeaderboard st gid now).config =
      some { cfg with last_leaderboard_time := some now } := by
  constructor
  · cases hm : (match parseSchedule (jsTrim (jsOrOptStr cfg.leaderboard_schedule dls)) with
               | some s => some s
               | none => parseSchedule dls) with
    | none => exact absurd hm hsched
    | some sch =>
      simp only [runLeaderboardForGroup, hcfg]
      rw [hm]
      simp [hrows]
  · simp [updateGroupAfterLeaderboard, hcfg, hgid]

/-- C9 witness: a registered group with a parseable leaderboard schedule and
an aggregation oracle returning no rows. -/
theorem runLeaderboardForGroup_empty_rows_witness :
    runLeaderboardForGroup "0 0 * * *" "24h" 10 (fun _ _ _ => [])
        ⟨some sampleLbGroup, []⟩ 1 777 =
      ⟨⟨true, "", none⟩, updateGroupAfterLeaderboard ⟨some sampleLbGroup, []⟩ 1 777, []⟩ ∧
    (updateGroupAfterLeaderboard ⟨some sampleLbGroup, []⟩ 1 777).config =
      some { sampleLbGroup with last_leaderboard_time := some 777 } :=
  runLeaderboardForGroup_empty_rows "0 0 * * *" "24h" 10 (fun _ _ _ => [])
    ⟨some sampleLbGroup, []⟩ 1 777 sampleLbGroup rfl rfl (by decide) rfl

/-! ## List lemmas for the summary batch -/

theorem length_insertByDate (m : GroupMessageRow) (l : List GroupMessageRow) :
    (insertByDate m l).length = l.length + 1 := by
  induction l with
  | nil => rfl
  | cons x xs ih =>
    by_cases h : m.message_date ≤ x.message_date
    · simp [insertByDate, h]
    · simp [insertByDate, h, ih]

theorem length_sortByDate (l : List GroupMessageRow) :
    (sortByDate l).length = l.length := by
  induction l with
  | nil => rfl
  | cons x xs ih => simp [sortByDate, length_insertByDate, ih]

theorem mem_insertByDate {y m : GroupMessageRow} {l : List GroupMessageRow} :
    y ∈ insertByDate m l ↔ y = m ∨ y ∈ l := by
  induction l with
  | nil => simp [insertByDate]
  | cons x xs ih =>
    by_cases h : m.message_date ≤ x.message_date
    · simp [insertByDate, h]
    · simp [insertByDate, h, ih]
      tauto

theorem mem_sortByDate {y : GroupMessageRow} {l : List GroupMessageRow} :
    y ∈ sortByDate l ↔ y ∈ l := by
  induction l with
  | nil => simp [sortByDate]
  | cons x xs ih => simp [sortByDate, mem_insertByDate, ih]

theorem le_foldl_max (l : List Int) (a : Int) : a ≤ l.foldl max a := by
  induction l generalizing a with
  | nil => simp
  | cons x xs ih => exact le_trans (le_max_left a x) (ih (max a x))

theorem mem_le_foldl_max {x : Int} {l : List Int} (a : Int) (h : x ∈ l) :
    x ≤ l.foldl max a := by
  induction l generalizing a with
  | nil => cases h
  | cons y ys ih =>
    rcases List.mem_cons.mp h with rfl | hm
    · exact le_trans (le_max_right a x) (le_foldl_max ys (max a x))
    · exact ih (max a y) hm

theorem le_listMax {x : Int} {l : List Int} (h : x ∈ l) : x ≤ listMax l := by
  cases l with
  | nil => cases h
  | cons y ys =>
    rcases List.mem_cons.mp h with rfl | hm
    · exact le_foldl_max ys x
    · exact mem_le_foldl_max y hm

/-! ## Claim theorems: summary watermark and idempotence -/

/-- Sorting a list already sorted by date leaves it unchanged. -/
theorem sortByDate_of_chain {l : List GroupMessageRow}
    (h : List.Chain' (fun a b => a.message_date ≤ b.message_date) l) :
    sortByDate l = l := by
  induction l with
  | nil => rfl
  | cons x xs ih =>
    cases xs with
    | nil => rfl
    | cons y t =>
      rw [List.chain'_cons] at h
      show insertByDate x (sortByDate (y :: t)) = x :: y :: t
      rw [ih h.2]
      simp [insertByDate, h.1]

theorem foldl_max_le {b : Int} : ∀ (l : List Int) (a : Int),
    a ≤ b → (∀ x ∈ l, x ≤ b) → l.foldl max a ≤ b := by
  intro l
  induction l with
  | nil =>
    intro a ha _
    simpa using ha
  | cons x xs ih =>
    intro a ha h
    exact ih (max a x) (max_le ha (h x (by simp))) (fun z hz => h z (by simp [hz]))

theorem listMax_le {l : List Int} {b : Int} (hb : 0 ≤ b)
    (h : ∀ x ∈ l, x ≤ b) : listMax l ≤ b := by
  cases l with
  | nil => simpa [listMax] using hb
  | cons x xs => exact foldl_max_le xs x (h x (by simp)) (fun z hz => h z (by simp [hz]))

/-- A pending message of the group makes the batch non-empty. -/
theorem getUnsummarized_ne_empty {st : DbState} {gid : Int} {m : GroupMessageRow}
    {limit : Nat} (hm : m ∈ st.messages) (hg : m.group_id = gid)
    (hs : m.is_summarized = false) (hl : 0 < limit) :
    (getUnsummarizedMessages st gid limit).isEmpty = false := by
  unfold getUnsummarizedMessages
  have hp : m ∈ st.messages.filter (fun x => x.group_id == gid && !x.is_summarized) :=
    List.mem_filter.mpr ⟨hm, by simp [hg, hs]⟩
  have hsm : m ∈ sortByDate (st.messages.filter
      (fun x => x.group_id == gid && !x.is_summarized)) :=
    mem_sortByDate.mpr hp
  have hlen : 0 < (sortByDate (st.messages.filter
      (fun x => x.group_id == gid && !x.is_summarized))).length :=
    List.length_pos.mpr (List.ne_nil_of_mem hsm)
  rw [List.isEmpty_eq_false]
  intro h0
  have hlt := congrArg List.length h0
  rw [List.length_take] at hlt
  simp only [List.length_nil] at hlt
  omega

/-- Shape of a successful executed summary run: the generation result is
returned, the generation call count is one, the summary is delivered, and
the state advances by marking up to the batch maximum and updating the
config row. -/
theorem runSummary_success_state (gen : List String → SummaryResult) (nowMs : Int)
    (st : DbState) (gid : Int) (cfg : GroupConfigRow)
    (hcfg : st.config = some cfg)
    (hne : (getUnsummarizedMessages st gid MAX_MESSAGES_PER_SUMMARY).isEmpty = false)
    (hok : (gen (formatMessages
      (getUnsummarizedMessages st gid MAX_MESSAGES_PER_SUMMARY))).success = true) :
    runSummaryForGroup gen nowMs st gid =
      ⟨gen (formatMessages (getUnsummarizedMessages st gid MAX_MESSAGES_PER_SUMMARY)),
       updateGroupAfterSummary
         (markMessagesSummarized st gid
           (listMax ((getUnsummarizedMessages st gid MAX_MESSAGES_PER_SUMMARY).map
             (fun msg => msg.message_id))))
         gid
         (listMax ((getUnsummarizedMessages st gid MAX_MESSAGES_PER_SUMMARY).map
           (fun msg => msg.message_id)))
         nowMs,
       1,
       [(cfg.target_chat_id.getD gid,
         (gen (formatMessages
           (getUnsummarizedMessages st gid MAX_MESSAGES_PER_SUMMARY))).content)]⟩ := by
  simp only [runSummaryForGroup, hcfg]
  simp [hne, hok]

theorem c5msgs_chain :
    List.Chain' (fun a b => a.message_date ≤ b.message_date) c5msgs := by
  unfold c5msgs
  rw [List.chain'_map]
  rw [show (501 : Nat) = Nat.succ 500 from rfl, List.chain'_range_succ]
  intro m _
  simp [c5msg]

theorem c5filter :
    c5msgs.filter (fun m => m.group_id == (1 : Int) && !m.is_summarized) = c5msgs :=
  List.filter_eq_self.mpr (by
    intro a ha
    obtain ⟨i, _, rfl⟩ := List.mem_map.mp ha
    rfl)

/-- The first run's batch is exactly the 500 oldest messages, ids 1..500. -/
theorem c5batch : getUnsummarizedMessages c5state 1 MAX_MESSAGES_PER_SUMMARY =
    (List.range 500).map c5msg := by
  unfold getUnsummarizedMessages
  have h1 : c5state.messages = c5msgs := rfl
  rw [h1, c5filter, sortByDate_of_chain c5msgs_chain]
  unfold c5msgs MAX_MESSAGES_PER_SUMMARY
  rw [← List.map_take, List.take_range]
  norm_num

/-- The batch maximum id is at most 500. -/
theorem c5maxle : listMax ((getUnsummarizedMessages c5state 1 MAX_MESSAGES_PER_SUMMARY).map
    (fun msg => msg.message_id)) ≤ 500 := by
  rw [c5batch]
  apply listMax_le (by norm_num)
  intro x hx
  obtain ⟨m, hm, rfl⟩ := List.mem_map.mp hx
  obtain ⟨i, hi, rfl⟩ := List.mem_map.mp hm
  have hi2 : i < 500 := List.mem_range.mp hi
  show (i : Int) + 1 ≤ 500
  omega

/-- C5 counterexample: with 501 pending messages the first successful run
drains only the 500 oldest (marking ids up to 500), so the immediately
repeated run with no new messages still finds a pending message, issues one
more generation call, and does not return the empty-content success that the
claim predicts. -/
theorem runSummary_idempotence_counterexample :
    (runSummaryForGroup c5gen 1000 c5state 1).result.success = true ∧
    (runSummaryForGroup c5gen 2000 (runSummaryForGroup c5gen 1000 c5state 1).state 1).genCalls = 1 ∧
    (runSummaryForGroup c5gen 2000 (runSummaryForGroup c5gen 1000 c5state 1).state 1).result =
      ⟨true, "ok", none⟩ := by
  have hne1 : (getUnsummarizedMessages c5state 1 MAX_MESSAGES_PER_SUMMARY).isEmpty = false :=
    getUnsummarized_ne_empty
      (List.mem_map.mpr ⟨0, List.mem_range.mpr (by norm_num), rfl⟩) rfl rfl (by decide)
  have hshape1 := runSummary_success_state c5gen 1000 c5state 1 c5cfg rfl hne1 rfl
  set M := listMax ((getUnsummarizedMessages c5state 1 MAX_MESSAGES_PER_SUMMARY).map
    (fun msg => msg.message_id)) with hM
  have hMle : M ≤ 500 := by
    rw [hM]
    exact c5maxle
  have hstate1 : (runSummaryForGroup c5gen 1000 c5state 1).state =
      updateGroupAfterSummary (markMessagesSummarized c5state 1 M) 1 M 1000 := by
    rw [hshape1]
  have h5 : ¬((c5msg 500).message_id ≤ M) := by
    show ¬(((500 : Nat) : Int) + 1 ≤ M)
    omega
  have hmem2 : c5msg 500 ∈
      (updateGroupAfterSummary (markMessagesSummarized c5state 1 M) 1 M 1000).messages := by
    show c5msg 500 ∈ (markMessagesSummarized c5state 1 M).messages
    simp only [markMessagesSummarized]
    refine List.mem_map.mpr ⟨c5msg 500, ?_, ?_⟩
    · exact List.mem_map.mpr ⟨500, List.mem_range.mpr (by norm_num), rfl⟩
    · simp [c5msg, h5]
      omega
  have hne2 : (getUnsummarizedMessages
      (updateGroupAfterSummary (markMessagesSummarized c5state 1 M) 1 M 1000) 1
      MAX_MESSAGES_PER_SUMMARY).isEmpty = false :=
    getUnsummarized_ne_empty hmem2 rfl rfl (by decide)
  have hcfg2 : (updateGroupAfterSummary (markMessagesSummarized c5state 1 M) 1 M 1000).config =
      some { c5cfg with last_summary_time := some 1000, last_message_id := M } := rfl
  have hshape2 := runSummary_success_state c5gen 2000
    (updateGroupAfterSummary (markMessagesSummarized c5state 1 M) 1 M 1000) 1
    { c5cfg with last_summary_time := some 1000, last_message_id := M } hcfg2 hne2 rfl
  refine ⟨?_, ?_, ?_⟩
  · rw [hshape1]
    rfl
  · rw [hstate1, hshape2]
  · rw [hstate1, hshape2]
    rfl

/-- Shared helper: with a registered group and no pending messages, the run
is the empty-success no-op. -/
theorem runSummary_empty_path (gen : List String → SummaryResult) (nowMs : Int)
    (st : DbState) (gid : Int) (c : GroupConfigRow) (hcfg : st.config = some c)
    (h : getUnsummarizedMessages st gid MAX_MESSAGES_PER_SUMMARY = []) :
    runSummaryForGroup gen nowMs st gid = ⟨⟨true, "", none⟩, st, 0, []⟩ := by
  simp only [runSummaryForGroup, hcfg]
  simp [h]

/-- C5 amended: when the first successful run's batch covers the whole
backlog — the number of the group's pending messages is at most
`MAX_MESSAGES_PER_SUMMARY` — every pending message has an id at most the
batch maximum, so the run marks all of them processed, and an immediately
repeated run with no new messages returns success with empty content, with
zero generation calls and no state change. With a larger backlog the repeated
run instead drains the remainder. -/
theorem runSummaryForGroup_drain (gen : List String → SummaryResult)
    (now1 now2 : Int) (st : DbState) (gid : Int) (cfg : GroupConfigRow)
    (hcfg : st.config = some cfg)
    (hgrp : ∀ m ∈ st.messages, m.group_id = gid)
    (hlen : (st.messages.filter (fun m => m.group_id == gid && !m.is_summarized)).length ≤
      MAX_MESSAGES_PER_SUMMARY)
    (hne : st.messages.filter (fun m => m.group_id == gid && !m.is_summarized) ≠ [])
    (hgen : (gen (formatMessages
        (getUnsummarizedMessages st gid MAX_MESSAGES_PER_SUMMARY))).success = true) :
    (∀ m ∈ (runSummaryForGroup gen now1 st gid).state.messages, m.is_summarized = true) ∧
    runSummaryForGroup gen now2 (runSummaryForGroup gen now1 st gid).state gid =
      ⟨⟨true, "", none⟩, (runSummaryForGroup gen now1 st gid).state, 0, []⟩ := by
  have hbatch : getUnsummarizedMessages st gid MAX_MESSAGES_PER_SUMMARY =
      sortByDate (st.messages.filter (fun m => m.group_id == gid && !m.is_summarized)) := by
    unfold getUnsummarizedMessages
    exact List.take_of_length_le (by
      rw [length_sortByDate]
      exact hlen)
  have hbne : sortByDate (st.messages.filter
      (fun m => m.group_id == gid && !m.is_summarized)) ≠ [] := by
    intro h0
    apply hne
    have hl := length_sortByDate (st.messages.filter
      (fun m => m.group_id == gid && !m.is_summarized))
    rw [h0] at hl
    exact List.length_eq_zero.mp hl.symm
  have hie : (sortByDate (st.messages.filter
      (fun m => m.group_id == gid && !m.is_summarized))).isEmpty = false :=
    List.isEmpty_eq_false.mpr hbne
  rw [hbatch] at hgen
  have hstate1 : (runSummaryForGroup gen now1 st gid).state =
      updateGroupAfterSummary
        (markMessagesSummarized st gid
          (listMax ((sortByDate (st.messages.filter
            (fun m => m.group_id == gid && !m.is_summarized))).map
              (fun msg => msg.message_id))))
        gid
        (listMax ((sortByDate (st.messages.filter
          (fun m => m.group_id == gid && !m.is_summarized))).map
            (fun msg => msg.message_id)))
        now1 := by
    simp only [runSummaryForGroup, hcfg, hbatch, hie, Bool.false_eq_true, if_false,
      hgen, Bool.not_true]
  have hall : ∀ m ∈ (runSummaryForGroup gen now1 st gid).state.messages,
      m.is_summarized = true := by
    intro m hm
    rw [hstate1] at hm
    have hupd : (updateGroupAfterSummary
        (markMessagesSummarized st gid
          (listMax ((sortByDate (st.messages.filter
            (fun m => m.group_id == gid && !m.is_summarized))).map
              (fun msg => msg.message_id))))
        gid
        (listMax ((sortByDate (st.messages.filter
          (fun m => m.group_id == gid && !m.is_summarized))).map
            (fun msg => msg.message_id)))
        now1).messages =
      (markMessagesSummarized st gid
        (listMax ((sortByDate (st.messages.filter
          (fun m => m.group_id == gid && !m.is_summarized))).map
            (fun msg => msg.message_id)))).messages := rfl
    rw [hupd] at hm
    simp only [markMessagesSummarized, List.mem_map] at hm
    obtain ⟨m0, hm0, rfl⟩ := hm
    cases hs : m0.is_summarized with
    | true => simp [hs]
    | false =>
      have hg := hgrp m0 hm0
      have hpend : m0 ∈ st.messages.filter
          (fun m => m.group_id == gid && !m.is_summarized) :=
        List.mem_filter.mpr ⟨hm0, by simp [hg, hs]⟩
      have hsort : m0 ∈ sortByDate (st.messages.filter
          (fun m => m.group_id == gid && !m.is_summarized)) :=
        mem_sortByDate.mpr hpend
      have hid : m0.message_id ≤ listMax ((sortByDate (st.messages.filter
          (fun m => m.group_id == gid && !m.is_summarized))).map
            (fun msg => msg.message_id)) :=
        le_listMax (List.mem_map.mpr ⟨m0, hsort, rfl⟩)
      simp [hg, hs, hid]
  refine ⟨hall, ?_⟩
  have hc2 : ∃ c2, (runSummaryForGroup gen now1 st gid).state.config = some c2 := by
    rw [hstate1]
    simp [updateGroupAfterSummary, markMessagesSummarized, hcfg]
  obtain ⟨c2, hc2⟩ := hc2
  have hempty : getUnsummarizedMessages (runSummaryForGroup gen now1 st gid).state
      gid MAX_MESSAGES_PER_SUMMARY = [] := by
    unfold getUnsummarizedMessages
    have hf : (runSummaryForGroup gen now1 st gid).state.messages.filter
        (fun m => m.group_id == gid && !m.is_summarized) = [] := by
      rw [List.filter_eq_nil_iff]
      intro a ha
      simp [hall a ha]
    rw [hf]
    rfl
  exact runSummary_empty_path gen now2 _ gid c2 hc2 hempty

/-- C5 amended witness: a one-message backlog is fully drained by the first
run and the immediately repeated run is an empty success with no further
generation call. -/
theorem runSummaryForGroup_drain_witness :
    runSummaryForGroup c5gen 60 (runSummaryForGroup c5gen 50 c5stateSmall 1).state 1 =
      ⟨⟨true, "", none⟩, (runSummaryForGroup c5gen 50 c5stateSmall 1).state, 0, []⟩ :=
  (runSummaryForGroup_drain c5gen 50 60 c5stateSmall 1 c5cfg rfl
    (by decide) (by decide) (by decide) rfl).2

end TeleDigest
